import Mathlib

/-!
Verification of the stereo-reconstruction script of magic-cta-pipe
(`magicctapipe/scripts/lst1_magic/lst1_magic_stereo_reco.py`).

The event table loaded from `events/parameters` is a list of per-telescope,
per-event rows, indexed by `(obs_id, event_id, tel_id)`.  Angles
(`pointing_az`, `pointing_alt`) are stored in radians; Hillas image moments
are carried along unchanged.  Floating-point numbers are modelled as real
numbers.

External collaborators:
  * the ctapipe `HillasReconstructor` (a third-party library object that the
    script calls once per event) is modelled as an explicit function
    argument `reco : EventIn → Estimate`;
  * astropy's `angular_separation` and `Angle.wrap_at` are small closed
    formulas and are embedded directly;
  * the `SubarrayDescription` telescope positions are a function argument
    `telPos : Nat → ℝ × ℝ × ℝ`.

Repository utilities imported by the script but absent from the sources at
hand (`calculate_mean_direction`, `get_stereo_events`, `calculate_impact`
from `magicctapipe.utils`) are modelled from the specification; each such
definition carries a doc comment starting with "Modelled from the spec:".
-/

namespace StereoReco

open Real

/-- One row of the `events/parameters` table: the `(obs_id, event_id,
tel_id)` index plus the pointing direction (radians) and the Hillas image
moments used by the reconstruction. -/
structure Row where
  obs_id : Nat
  event_id : Nat
  tel_id : Nat
  pointing_az : ℝ
  pointing_alt : ℝ
  intensity : ℝ
  x : ℝ
  y : ℝ
  r : ℝ
  phi : ℝ
  length : ℝ
  width : ℝ
  psi : ℝ
  skewness : ℝ
  kurtosis : ℝ

/-- The full `(obs_id, event_id, tel_id)` index of a row. -/
def rowKey (a : Row) : Nat × Nat × Nat := (a.obs_id, a.event_id, a.tel_id)

/-- The `(obs_id, event_id)` part of a row's index. -/
def evKey (a : Row) : Nat × Nat := (a.obs_id, a.event_id)

/-- Lexicographic order on `(obs_id, event_id, tel_id)` triples: the order
`DataFrame.sort_index` sorts the event table by. -/
def lex3 (a b : Nat × Nat × Nat) : Prop :=
  a.1 < b.1 ∨ (a.1 = b.1 ∧ (a.2.1 < b.2.1 ∨ (a.2.1 = b.2.1 ∧ a.2.2 ≤ b.2.2)))

instance (a b : Nat × Nat × Nat) : Decidable (lex3 a b) := by
  unfold lex3; infer_instance

/-- Row comparison used by the model of `event_data.sort_index()`. -/
def rowle (a b : Row) : Prop := lex3 (rowKey a) (rowKey b)

instance (a b : Row) : Decidable (rowle a b) := by
  unfold rowle lex3; infer_instance

instance : IsTotal Row rowle := ⟨fun a b => by unfold rowle lex3; omega⟩

instance : IsTrans Row rowle := ⟨fun a b c => by unfold rowle lex3; omega⟩

/-- `event_data.set_index([...]); event_data.sort_index()` (lines 128-129):
a stable sort of the rows by their `(obs_id, event_id, tel_id)` index. -/
def sortRows (rows : List Row) : List Row := rows.insertionSort rowle

/-- Modelled from the spec: `get_stereo_events` (magicctapipe.utils, not
under the sources at hand).  Per §6 the core receives "a curated,
already-quality-cut collection" of rows and §1 places survival/quality-cut
selection outside the core, so the call at line 139 is modelled as
filtering the rows by an opaque quality-cut predicate, preserving their
order.  Per §4.4 step 7, an event left with fewer than two telescopes is
kept and later marked invalid rather than being dropped. -/
def get_stereo_events (quality_cuts : Row → Bool) (rows : List Row) : List Row :=
  rows.filter quality_cuts

/-- `np.unique(event_data.index.get_level_values("tel_id")).tolist()`
(line 152): the sorted list of distinct telescope ids present. -/
def uniqueTelIds (rows : List Row) : List Nat :=
  ((rows.map (·.tel_id)).insertionSort (· ≤ ·)).dedup

/-- `np.arctan2 y x`, i.e. the angle in `(-π, π]` of the point `(x, y)`. -/
noncomputable def atan2 (y x : ℝ) : ℝ := Complex.arg (x + y * Complex.I)

/-- Modelled from the spec: `calculate_mean_direction` (magicctapipe.utils,
not under the sources at hand).  §4.3: "convert each direction to a unit
Cartesian vector, average the vectors, renormalize, convert back to
(azimuth, altitude)".  Directions are `(lon, lat)` pairs in radians; the
call sites in the script use the unweighted form. -/
noncomputable def calculate_mean_direction (dirs : List (ℝ × ℝ)) : ℝ × ℝ :=
  let n : ℝ := dirs.length
  let mx := (dirs.map fun d => Real.cos d.2 * Real.cos d.1).sum / n
  let my := (dirs.map fun d => Real.cos d.2 * Real.sin d.1).sum / n
  let mz := (dirs.map fun d => Real.sin d.2).sum / n
  let norm := Real.sqrt (mx ^ 2 + my ^ 2 + mz ^ 2)
  (atan2 my mx, Real.arcsin (mz / norm))

/-- astropy's `angular_separation` (the Vincenty formula), the external
routine called at line 96; all angles in radians. -/
noncomputable def angular_separation (lon1 lat1 lon2 lat2 : ℝ) : ℝ :=
  let sdlon := Real.sin (lon2 - lon1)
  let cdlon := Real.cos (lon2 - lon1)
  let slat1 := Real.sin lat1
  let slat2 := Real.sin lat2
  let clat1 := Real.cos lat1
  let clat2 := Real.cos lat2
  let num1 := clat2 * sdlon
  let num2 := clat1 * slat2 - slat1 * clat2 * cdlon
  let denominator := slat1 * slat2 + clat1 * clat2 * cdlon
  atan2 (Real.sqrt (num1 ^ 2 + num2 ^ 2)) denominator

/-- `theta.to(u.arcmin)` (line 162): radians to arcminutes. -/
noncomputable def toArcmin (theta : ℝ) : ℝ := theta * (10800 / Real.pi)

/-- The implicit precondition of `df_magic.loc[multi_indices]` (line 89):
every `(obs_id, event_id)` key of a `tel_id == 1` row is present among the
`tel_id ∈ {2, 3}` rows.  pandas raises `KeyError` exactly when some
requested key is absent. -/
def lst_covered (event_data : List Row) : Bool :=
  (event_data.filter fun a => a.tel_id == 1).all fun rl =>
    (event_data.filter fun a => a.tel_id == 2 || a.tel_id == 3).any fun rm =>
      decide (evKey rm = evKey rl)

/-- `calculate_pointing_separation` (lines 59-103): for each LST-1 row,
the angular distance between its pointing and the mean of the MAGIC
pointings of the same `(obs_id, event_id)`.  The `df_magic.loc` reindexing
raises (`none`) when some LST key has no MAGIC row; otherwise one
separation per LST-1 row is returned, in radians. -/
noncomputable def calculate_pointing_separation (event_data : List Row) :
    Option (List ℝ) :=
  let df_lst := event_data.filter fun a => a.tel_id == 1
  let df_magic := event_data.filter fun a => a.tel_id == 2 || a.tel_id == 3
  if lst_covered event_data then
    some <| df_lst.map fun rl =>
      let magicRows := df_magic.filter fun rm => decide (evKey rm = evKey rl)
      let m := calculate_mean_direction
        (magicRows.map fun a => (a.pointing_az, a.pointing_alt))
      angular_separation rl.pointing_az rl.pointing_alt m.1 m.2
  else none

/-- The per-event output of the reconstructor, in the units the script
stores (degrees for angles, meters for lengths): the
`event.dl2.stereo.geometry["HillasReconstructor"]` container read at
line 235. -/
structure Estimate where
  alt : ℝ
  alt_uncert : ℝ
  az : ℝ
  az_uncert : ℝ
  core_x : ℝ
  core_y : ℝ
  core_uncert : ℝ
  h_max : ℝ
  h_max_uncert : ℝ
  is_valid : Bool

/-- What the script hands to the external reconstructor for one event:
the mean array pointing (lines 201-202) and the event's rows, from which
the per-telescope pointings and Hillas containers are filled
(lines 208-230). -/
structure EventIn where
  array_az : ℝ
  array_alt : ℝ
  rows : List Row

/-- One output row: the input index plus the stereo parameters written at
lines 252-266.  `is_valid` is stored as `int(stereo_params.is_valid)`. -/
structure ERow where
  obs_id : Nat
  event_id : Nat
  tel_id : Nat
  alt : ℝ
  alt_uncert : ℝ
  az : ℝ
  az_uncert : ℝ
  core_x : ℝ
  core_y : ℝ
  core_uncert : ℝ
  impact : ℝ
  h_max : ℝ
  h_max_uncert : ℝ
  is_valid : Nat

/-- `stereo_params.az.wrap_at(360 * u.deg, inplace=True)` (line 236):
astropy's wrap of an angle (in degrees) into `[0, 360)` by subtracting the
appropriate multiple of 360. -/
noncomputable def wrapAngle (az : ℝ) : ℝ := az - 360 * ⌊az / 360⌋

/-- Modelled from the spec: `calculate_impact` (magicctapipe.utils, not
under the sources at hand).  §4.5: "the perpendicular Euclidean distance
from that telescope's position to the 3D line defined by the core position
and the reconstructed direction vector".  Angles arrive in degrees (the
units of the stored stereo parameters), the core lies in the ground plane
`z = 0`. -/
noncomputable def calculate_impact (shower_alt shower_az core_x core_y
    tel_pos_x tel_pos_y tel_pos_z : ℝ) : ℝ :=
  let altr := shower_alt * (Real.pi / 180)
  let azr := shower_az * (Real.pi / 180)
  let dx := Real.cos altr * Real.cos azr
  let dy := Real.cos altr * Real.sin azr
  let dz := Real.sin altr
  let px := tel_pos_x - core_x
  let py := tel_pos_y - core_y
  let pz := tel_pos_z
  let t := px * dx + py * dy + pz * dz
  Real.sqrt ((px - t * dx) ^ 2 + (py - t * dy) ^ 2 + (pz - t * dz) ^ 2)

/-- `df_evt = event_data.query("(obs_id == ...) & (event_id == ...)")`
(line 204): the rows of one event, in table order. -/
def rowsOfEvent (rows : List Row) (k : Nat × Nat) : List Row :=
  rows.filter fun a => decide (evKey a = k)

/-- The reconstructor input for event `k`: the event's mean pointing
(`calculate_mean_direction` grouped per event, lines 188-190 and 201-202)
and the event's rows. -/
noncomputable def eventInput (rows : List Row) (k : Nat × Nat) : EventIn :=
  let df_evt := rowsOfEvent rows k
  let m := calculate_mean_direction
    (df_evt.map fun a => (a.pointing_az, a.pointing_alt))
  ⟨m.1, m.2, df_evt⟩

/-- The stereo estimate the script stores for event `k`: the external
reconstructor's output with its azimuth wrapped into `[0, 360)`
(lines 233-236). -/
noncomputable def estFor (reco : EventIn → Estimate) (rows : List Row)
    (k : Nat × Nat) : Estimate :=
  let est := reco (eventInput rows k)
  { est with az := wrapAngle est.az }

/-- Lines 238-266: one output row per telescope of the event, broadcasting
the event's stereo parameters and computing the impact from that
telescope's own position. -/
noncomputable def enrichRow (telPos : Nat → ℝ × ℝ × ℝ) (est : Estimate)
    (a : Row) : ERow :=
  let p := telPos a.tel_id
  { obs_id := a.obs_id
    event_id := a.event_id
    tel_id := a.tel_id
    alt := est.alt
    alt_uncert := est.alt_uncert
    az := est.az
    az_uncert := est.az_uncert
    core_x := est.core_x
    core_y := est.core_y
    core_uncert := est.core_uncert
    impact := calculate_impact est.alt est.az est.core_x est.core_y
      p.1 p.2.1 p.2.2
    h_max := est.h_max
    h_max_uncert := est.h_max_uncert
    is_valid := if est.is_valid then 1 else 0 }

/-- `event_data.groupby(["obs_id", "event_id"]).size()` (line 192) on the
sorted table: the distinct `(obs_id, event_id)` keys, in table order. -/
def eventKeys (rows : List Row) : List (Nat × Nat) := (rows.map evKey).dedup

/-- The reconstruction loop (lines 196-266): events are visited in the
order of `eventKeys`, and each of the event's rows is enriched with the
event's stereo parameters. -/
noncomputable def processEvents (reco : EventIn → Estimate)
    (telPos : Nat → ℝ × ℝ × ℝ) (rows : List Row) : List ERow :=
  (eventKeys rows).flatMap fun k =>
    (rowsOfEvent rows k).map (enrichRow telPos (estFor reco rows k))

/-- Input preparation (lines 127-139): sort by the index, optionally keep
only MAGIC rows (`--magic-only`, `tel_id > 1`), then apply the quality
cuts. -/
def prepRows (quality_cuts : Row → Bool) (magic_only : Bool)
    (rows : List Row) : List Row :=
  let sorted := sortRows rows
  let sel := if magic_only then sorted.filter (fun a => 1 < a.tel_id) else sorted
  get_stereo_events quality_cuts sel

/-- How one run of `stereo_reconstruction` ends: an uncaught exception, a
`sys.exit(code)`, or normal completion with the enriched table written to
the output file. -/
inductive Outcome where
  | raised : Outcome
  | exited : Nat → Outcome
  | completed : List ERow → Outcome

/-- The process exit status of `sys.exit(arg)` in Python: `None` (no
argument) means status 0. -/
def sysExitStatus (arg : Option Nat) : Nat := arg.getD 0

/-- The process exit status a caller observes for each outcome: the
`sys.exit` code, 0 on normal completion, 1 for an uncaught exception. -/
def exitStatus : Outcome → Nat
  | Outcome.raised => 1
  | Outcome.exited c => c
  | Outcome.completed _ => 0

/-- The table written to the output file, if the run got that far. -/
def writtenOf : Outcome → Option (List ERow)
  | Outcome.completed w => some w
  | _ => none

/-- The reconstruction loop and the write-out (lines 196-302): the loop
iterates the grouped event keys enriching every row; afterwards line 268
reads `n_events_processed = i_evt + 1`, and when the loop body never ran —
no event keys, i.e. an empty prepared table — the name `i_evt` was never
bound and the script raises `NameError` with nothing written.  Otherwise
the enriched table is written to the output file. -/
noncomputable def reconstructAndWrite (reco : EventIn → Estimate)
    (telPos : Nat → ℝ × ℝ × ℝ) (event_data : List Row) : Outcome :=
  if eventKeys event_data = [] then Outcome.raised
  else Outcome.completed (processEvents reco telPos event_data)

/-- The branch taken when the pointing check runs (lines 161-176): compute
the separations (a pandas `KeyError` surfaces as `raised`), take
`np.max` of their arcminute values (`np.max` of an empty array raises),
and `sys.exit()` — with no argument — when the maximum exceeds
`theta_uplim`; otherwise reconstruction proceeds. -/
noncomputable def pointingChecked (reco : EventIn → Estimate)
    (telPos : Nat → ℝ × ℝ × ℝ) (theta_uplim : ℝ) (event_data : List Row) :
    Outcome :=
  match calculate_pointing_separation event_data with
  | none => Outcome.raised
  | some theta =>
    match (theta.map toArcmin).max? with
    | none => Outcome.raised
    | some theta_max =>
      if theta_max > theta_uplim then Outcome.exited (sysExitStatus none)
      else reconstructAndWrite reco telPos event_data

/-- `stereo_reconstruction` (lines 106-302): prepare the input, run the
pointing-consistency check when the data is not simulated and the unique
telescope ids differ from `[2, 3]`, then reconstruct every event and write
the enriched table (raising at line 268 when no event was iterated).
`theta_uplim` is `config["stereo_reco"]["theta_uplim"]` in arcminutes. -/
noncomputable def stereo_reconstruction (reco : EventIn → Estimate)
    (telPos : Nat → ℝ × ℝ × ℝ) (theta_uplim : ℝ) (quality_cuts : Row → Bool)
    (is_simulation magic_only : Bool) (rows : List Row) : Outcome :=
  let event_data := prepRows quality_cuts magic_only rows
  let tel_ids := uniqueTelIds event_data
  if !is_simulation && !(decide (tel_ids = [2, 3])) then
    pointingChecked reco telPos theta_uplim event_data
  else
    reconstructAndWrite reco telPos event_data

/-! ### Helper lemmas -/

lemma telIds_ne_of_one_mem {l : List Nat} (h : 1 ∈ l) : l ≠ [2, 3] := by
  intro he; rw [he] at h; simp at h

lemma eventKeys_ne_nil {l : List Row} (h : l ≠ []) : eventKeys l ≠ [] := by
  cases l with
  | nil => exact absurd rfl h
  | cons a t =>
    exact List.ne_nil_of_mem
      (List.mem_dedup.mpr (List.mem_map_of_mem evKey (List.mem_cons_self a t)))

lemma ne_nil_of_mem_uniqueTelIds {t : Nat} {l : List Row}
    (h : t ∈ uniqueTelIds l) : l ≠ [] := by
  intro he
  subst he
  exact List.not_mem_nil t h

lemma reconstructAndWrite_completed (reco : EventIn → Estimate)
    (telPos : Nat → ℝ × ℝ × ℝ) (l : List Row) (h : eventKeys l ≠ []) :
    reconstructAndWrite reco telPos l =
      Outcome.completed (processEvents reco telPos l) := by
  unfold reconstructAndWrite
  simp [h]

lemma run_eq_checked_of_ne (reco : EventIn → Estimate) (telPos : Nat → ℝ × ℝ × ℝ)
    (theta_uplim : ℝ) (quality_cuts : Row → Bool) (monly : Bool)
    (rows : List Row)
    (hne : uniqueTelIds (prepRows quality_cuts monly rows) ≠ [2, 3]) :
    stereo_reconstruction reco telPos theta_uplim quality_cuts false monly rows =
      pointingChecked reco telPos theta_uplim (prepRows quality_cuts monly rows) := by
  unfold stereo_reconstruction
  simp only [Bool.not_false, Bool.true_and, decide_eq_false hne, Bool.not_false,
    if_pos]

lemma run_eq_checked (reco : EventIn → Estimate) (telPos : Nat → ℝ × ℝ × ℝ)
    (theta_uplim : ℝ) (quality_cuts : Row → Bool) (monly : Bool)
    (rows : List Row)
    (h1 : 1 ∈ uniqueTelIds (prepRows quality_cuts monly rows)) :
    stereo_reconstruction reco telPos theta_uplim quality_cuts false monly rows =
      pointingChecked reco telPos theta_uplim (prepRows quality_cuts monly rows) :=
  run_eq_checked_of_ne reco telPos theta_uplim quality_cuts monly rows
    (telIds_ne_of_one_mem h1)

lemma checked_exits (reco : EventIn → Estimate) (telPos : Nat → ℝ × ℝ × ℝ)
    (theta_uplim : ℝ) (l : List Row) (ts : List ℝ) (m : ℝ)
    (hsep : calculate_pointing_separation l = some ts)
    (hmax : (ts.map toArcmin).max? = some m) (hgt : m > theta_uplim) :
    pointingChecked reco telPos theta_uplim l = Outcome.exited 0 := by
  unfold pointingChecked
  simp only [hsep, hmax]
  simp [hgt, sysExitStatus]

lemma checked_completes (reco : EventIn → Estimate) (telPos : Nat → ℝ × ℝ × ℝ)
    (theta_uplim : ℝ) (l : List Row) (ts : List ℝ) (m : ℝ)
    (hsep : calculate_pointing_separation l = some ts)
    (hmax : (ts.map toArcmin).max? = some m) (hle : ¬ m > theta_uplim) :
    pointingChecked reco telPos theta_uplim l =
      reconstructAndWrite reco telPos l := by
  unfold pointingChecked
  simp only [hsep, hmax]
  simp [hle]

/-! ### C1 -/

/-- C1: for a non-simulated batch containing both LST-1 and MAGIC
telescopes, when the maximum angular separation (in arcminutes) between
the LST-1 pointing and the mean MAGIC pointing is exactly `theta_uplim`,
the check passes and reconstruction proceeds to completion; when it
strictly exceeds the limit, the run aborts.  The boundary is inclusive:
the source (line 165) aborts only on `theta_max > theta_uplim`. -/
theorem C1_pointing_boundary_inclusive (reco : EventIn → Estimate)
    (telPos : Nat → ℝ × ℝ × ℝ) (theta_uplim : ℝ) (quality_cuts : Row → Bool)
    (monly : Bool) (rows : List Row) (ts : List ℝ) (m : ℝ)
    (hlst : 1 ∈ uniqueTelIds (prepRows quality_cuts monly rows))
    (_hmagic : 2 ∈ uniqueTelIds (prepRows quality_cuts monly rows) ∨
      3 ∈ uniqueTelIds (prepRows quality_cuts monly rows))
    (hsep : calculate_pointing_separation (prepRows quality_cuts monly rows) =
      some ts)
    (hmax : (ts.map toArcmin).max? = some m) :
    (m = theta_uplim →
      stereo_reconstruction reco telPos theta_uplim quality_cuts false monly rows =
        Outcome.completed
          (processEvents reco telPos (prepRows quality_cuts monly rows))) ∧
    (m > theta_uplim →
      stereo_reconstruction reco telPos theta_uplim quality_cuts false monly rows =
        Outcome.exited 0) := by
  constructor
  · intro heq
    rw [run_eq_checked reco telPos theta_uplim quality_cuts monly rows hlst,
      checked_completes reco telPos theta_uplim _ ts m hsep hmax
        (by rw [heq]; exact lt_irrefl _)]
    exact reconstructAndWrite_completed reco telPos _
      (eventKeys_ne_nil (ne_nil_of_mem_uniqueTelIds hlst))
  · intro hgt
    rw [run_eq_checked reco telPos theta_uplim quality_cuts monly rows hlst]
    exact checked_exits reco telPos theta_uplim _ ts m hsep hmax hgt

/-! witness data shared by the pointing-check claims -/

def mkRow (o e t : Nat) : Row := ⟨o, e, t, 0, 0, 0, 0, 0, 0, 0, 0, 0, 0, 0, 0⟩

def cutT : Row → Bool := fun _ => true

def est0 : Estimate := ⟨0, 0, 0, 0, 0, 0, 0, 0, 0, false⟩

def recoW : EventIn → Estimate := fun _ => est0

def telPosW : Nat → ℝ × ℝ × ℝ := fun _ => (0, 0, 0)

def rowsW : List Row := [mkRow 1 1 1, mkRow 1 1 2, mkRow 1 1 3]

def prepW : List Row := prepRows cutT false rowsW

noncomputable def tsW : List ℝ := (calculate_pointing_separation prepW).getD []

noncomputable def mW : ℝ := ((tsW.map toArcmin).max?).getD 0

theorem C1_witness :
    (1 ∈ uniqueTelIds prepW) ∧
    (2 ∈ uniqueTelIds prepW) ∧
    (calculate_pointing_separation prepW = some tsW) ∧
    ((tsW.map toArcmin).max? = some mW) ∧
    (stereo_reconstruction recoW telPosW mW cutT false false rowsW =
      Outcome.completed (processEvents recoW telPosW prepW)) ∧
    (stereo_reconstruction recoW telPosW (mW - 1) cutT false false rowsW =
      Outcome.exited 0) := by
  have h1 : 1 ∈ uniqueTelIds prepW := by decide
  have h2 : 2 ∈ uniqueTelIds prepW := by decide
  refine ⟨h1, h2, rfl, rfl, ?_, ?_⟩
  · exact (C1_pointing_boundary_inclusive recoW telPosW mW cutT false rowsW
      tsW mW h1 (Or.inl h2) rfl rfl).1 rfl
  · exact (C1_pointing_boundary_inclusive recoW telPosW (mW - 1) cutT false
      rowsW tsW mW h1 (Or.inl h2) rfl rfl).2 (sub_lt_self mW one_pos)

/-! ### C2 -/

/-- C2: when the maximum cross-subset pointing separation exceeds the
configured limit, `stereo_reconstruction` aborts the whole run before any
per-event reconstruction: the outcome is the bare `sys.exit()` (the
`Outcome.exited` constructor carries no reconstruction products) and no
output table is written. -/
theorem C2_abort_before_reconstruction (reco : EventIn → Estimate)
    (telPos : Nat → ℝ × ℝ × ℝ) (theta_uplim : ℝ) (quality_cuts : Row → Bool)
    (monly : Bool) (rows : List Row) (ts : List ℝ) (m : ℝ)
    (hlst : 1 ∈ uniqueTelIds (prepRows quality_cuts monly rows))
    (hsep : calculate_pointing_separation (prepRows quality_cuts monly rows) =
      some ts)
    (hmax : (ts.map toArcmin).max? = some m) (hgt : m > theta_uplim) :
    stereo_reconstruction reco telPos theta_uplim quality_cuts false monly rows =
      Outcome.exited 0 ∧
    writtenOf
      (stereo_reconstruction reco telPos theta_uplim quality_cuts false monly
        rows) = none := by
  have h := run_eq_checked reco telPos theta_uplim quality_cuts monly rows hlst
  rw [h, checked_exits reco telPos theta_uplim _ ts m hsep hmax hgt]
  exact ⟨rfl, rfl⟩

theorem C2_witness :
    (1 ∈ uniqueTelIds prepW) ∧
    (calculate_pointing_separation prepW = some tsW) ∧
    ((tsW.map toArcmin).max? = some mW) ∧
    (mW > mW - 1) ∧
    (stereo_reconstruction recoW telPosW (mW - 1) cutT false false rowsW =
        Outcome.exited 0 ∧
      writtenOf
        (stereo_reconstruction recoW telPosW (mW - 1) cutT false false rowsW) =
          none) := by
  have h1 : 1 ∈ uniqueTelIds prepW := by decide
  exact ⟨h1, rfl, rfl, sub_lt_self mW one_pos,
    C2_abort_before_reconstruction recoW telPosW (mW - 1) cutT false rowsW
      tsW mW h1 rfl rfl (sub_lt_self mW one_pos)⟩

/-! ### C9 -/

/-- C9: the pointing-mismatch abort calls `sys.exit()` with no argument
(line 170), so the process terminates with exit status 0 — the same status
as a normal successful completion — and a caller observing the exit status
cannot distinguish the abort from success. -/
theorem C9_abort_exit_status_zero (reco : EventIn → Estimate)
    (telPos : Nat → ℝ × ℝ × ℝ) (theta_uplim : ℝ) (quality_cuts : Row → Bool)
    (monly : Bool) (rows : List Row) (ts : List ℝ) (m : ℝ)
    (hlst : 1 ∈ uniqueTelIds (prepRows quality_cuts monly rows))
    (hsep : calculate_pointing_separation (prepRows quality_cuts monly rows) =
      some ts)
    (hmax : (ts.map toArcmin).max? = some m) (hgt : m > theta_uplim) :
    stereo_reconstruction reco telPos theta_uplim quality_cuts false monly rows =
      Outcome.exited (sysExitStatus none) ∧
    sysExitStatus none = 0 ∧
    ∀ w : List ERow,
      exitStatus
        (stereo_reconstruction reco telPos theta_uplim quality_cuts false monly
          rows) = exitStatus (Outcome.completed w) := by
  have h := run_eq_checked reco telPos theta_uplim quality_cuts monly rows hlst
  rw [h, checked_exits reco telPos theta_uplim _ ts m hsep hmax hgt]
  exact ⟨rfl, rfl, fun w => rfl⟩

theorem C9_witness :
    (1 ∈ uniqueTelIds prepW) ∧
    (calculate_pointing_separation prepW = some tsW) ∧
    ((tsW.map toArcmin).max? = some mW) ∧
    (mW > mW - 1) ∧
    (stereo_reconstruction recoW telPosW (mW - 1) cutT false false rowsW =
        Outcome.exited (sysExitStatus none) ∧
      sysExitStatus none = 0 ∧
      ∀ w : List ERow,
        exitStatus
          (stereo_reconstruction recoW telPosW (mW - 1) cutT false false rowsW) =
          exitStatus (Outcome.completed w)) := by
  have h1 : 1 ∈ uniqueTelIds prepW := by decide
  exact ⟨h1, rfl, rfl, sub_lt_self mW one_pos,
    C9_abort_exit_status_zero recoW telPosW (mW - 1) cutT false rowsW
      tsW mW h1 rfl rfl (sub_lt_self mW one_pos)⟩

/-! ### C3 -/

def rows3 : List Row := [mkRow 1 1 1]

def rows23 : List Row := [mkRow 1 1 2, mkRow 1 1 3]

/-- C3 counterexample: a non-simulated batch containing only LST-1 rows is
a batch with a single telescope subset type, yet the pointing check is not
skipped for it: the run does not proceed unconditionally — the check
executes and its MAGIC lookup raises, so the claimed "skipped for any
single-subset batch" is false on the code. -/
theorem C3_counterexample :
    ((prepRows cutT false rows3).all (fun a => a.tel_id == 1) = true) ∧
    stereo_reconstruction recoW telPosW 0 cutT false false rows3 =
      Outcome.raised := by
  exact ⟨rfl, rfl⟩

/-- C3 (amended): the pointing consistency check is executed iff the data
is non-simulated and the distinct telescope ids differ from `[2, 3]`; for
simulated data and for MAGIC-only batches the check is skipped and
reconstruction proceeds unconditionally whenever the prepared table has at
least one event (with no events, line 268 raises `NameError` — `i_evt` was
never bound — regardless of the check).  A non-simulated batch with a
single telescope subset type other than MAGIC-only (e.g. LST-only) still
executes the check. -/
theorem C3_check_condition_amended (reco : EventIn → Estimate)
    (telPos : Nat → ℝ × ℝ × ℝ) (theta_uplim : ℝ) (quality_cuts : Row → Bool)
    (monly : Bool) (rows : List Row) :
    (eventKeys (prepRows quality_cuts monly rows) ≠ [] →
      stereo_reconstruction reco telPos theta_uplim quality_cuts true monly
        rows =
        Outcome.completed
          (processEvents reco telPos (prepRows quality_cuts monly rows))) ∧
    (uniqueTelIds (prepRows quality_cuts monly rows) = [2, 3] →
      stereo_reconstruction reco telPos theta_uplim quality_cuts false monly
        rows =
        Outcome.completed
          (processEvents reco telPos (prepRows quality_cuts monly rows))) ∧
    (uniqueTelIds (prepRows quality_cuts monly rows) ≠ [2, 3] →
      stereo_reconstruction reco telPos theta_uplim quality_cuts false monly
        rows =
        pointingChecked reco telPos theta_uplim
          (prepRows quality_cuts monly rows)) := by
  refine ⟨?_, ?_, ?_⟩
  · intro hek
    show reconstructAndWrite reco telPos (prepRows quality_cuts monly rows) = _
    exact reconstructAndWrite_completed reco telPos _ hek
  · intro h
    have hprep : prepRows quality_cuts monly rows ≠ [] := by
      intro he
      rw [he] at h
      exact absurd h (by decide)
    have hr := reconstructAndWrite_completed reco telPos
      (prepRows quality_cuts monly rows) (eventKeys_ne_nil hprep)
    unfold stereo_reconstruction
    simp only [decide_eq_true_eq] at *
    simp [h, hr]
  · intro hne
    exact run_eq_checked_of_ne reco telPos theta_uplim quality_cuts monly rows
      hne

theorem C3_witness :
    (eventKeys prepW ≠ []) ∧
    (stereo_reconstruction recoW telPosW 0 cutT true false rowsW =
      Outcome.completed (processEvents recoW telPosW prepW)) ∧
    (uniqueTelIds (prepRows cutT false rows23) = [2, 3]) ∧
    (stereo_reconstruction recoW telPosW 0 cutT false false rows23 =
      Outcome.completed
        (processEvents recoW telPosW (prepRows cutT false rows23))) ∧
    (uniqueTelIds (prepRows cutT false rows3) ≠ [2, 3]) ∧
    (stereo_reconstruction recoW telPosW 0 cutT false false rows3 =
      pointingChecked recoW telPosW 0 (prepRows cutT false rows3)) := by
  have hek : eventKeys prepW ≠ [] := by decide
  have h23 : uniqueTelIds (prepRows cutT false rows23) = [2, 3] := by decide
  have hne : uniqueTelIds (prepRows cutT false rows3) ≠ [2, 3] := by decide
  exact ⟨hek, (C3_check_condition_amended recoW telPosW 0 cutT false rowsW).1 hek,
    h23, (C3_check_condition_amended recoW telPosW 0 cutT false rows23).2.1 h23,
    hne, (C3_check_condition_amended recoW telPosW 0 cutT false rows3).2.2 hne⟩

/-! ### Helper lemmas for the reconstruction loop -/

lemma completed_out (reco : EventIn → Estimate) (telPos : Nat → ℝ × ℝ × ℝ)
    (theta_uplim : ℝ) (quality_cuts : Row → Bool) (sim monly : Bool)
    (rows : List Row) (out : List ERow)
    (h : stereo_reconstruction reco telPos theta_uplim quality_cuts sim monly
      rows = Outcome.completed out) :
    out = processEvents reco telPos (prepRows quality_cuts monly rows) := by
  unfold stereo_reconstruction pointingChecked reconstructAndWrite at h
  dsimp only at h
  split at h
  · split at h
    · exact absurd h (by simp)
    · split at h
      · exact absurd h (by simp)
      · split at h
        · exact absurd h (by simp)
        · split at h
          · exact absurd h (by simp)
          · injection h with h
            exact h.symm
  · split at h
    · exact absurd h (by simp)
    · injection h with h
      exact h.symm

lemma mem_processEvents {reco : EventIn → Estimate} {telPos : Nat → ℝ × ℝ × ℝ}
    {l : List Row} {er : ERow} :
    er ∈ processEvents reco telPos l ↔
      ∃ a ∈ l, er = enrichRow telPos (estFor reco l (evKey a)) a := by
  unfold processEvents
  simp only [List.mem_flatMap, List.mem_map]
  constructor
  · rintro ⟨k, _hk, a, ha, rfl⟩
    obtain ⟨hal, hae⟩ := List.mem_filter.mp ha
    have hk : evKey a = k := of_decide_eq_true hae
    subst hk
    exact ⟨a, hal, rfl⟩
  · rintro ⟨a, ha, rfl⟩
    refine ⟨evKey a, List.mem_dedup.mpr (List.mem_map_of_mem _ ha), a, ?_, rfl⟩
    exact List.mem_filter.mpr ⟨ha, by simp⟩

lemma wrapAngle_bounds (x : ℝ) : 0 ≤ wrapAngle x ∧ wrapAngle x < 360 := by
  unfold wrapAngle
  have h360 : (360 : ℝ) ≠ 0 := by norm_num
  constructor
  · have h1 := mul_le_mul_of_nonneg_right (Int.floor_le (x / 360))
      (show (0 : ℝ) ≤ 360 by norm_num)
    rw [div_mul_cancel₀ x h360] at h1
    linarith
  · have h2 := mul_lt_mul_of_pos_right (Int.lt_floor_add_one (x / 360))
      (show (0 : ℝ) < 360 by norm_num)
    rw [div_mul_cancel₀ x h360] at h2
    linarith

/-! ### C4 -/

/-- C4: in every completed run, the azimuth stored on each output row lies
in `[0°, 360°)` and differs from the azimuth the reconstructor produced for
that row's event by an exact integer multiple of 360° — it is wrapped
(reduced modulo 360°), not clamped, whatever hemisphere the intersection
arithmetic landed in. -/
theorem C4_az_wrapped_into_range (reco : EventIn → Estimate)
    (telPos : Nat → ℝ × ℝ × ℝ) (theta_uplim : ℝ) (quality_cuts : Row → Bool)
    (sim monly : Bool) (rows : List Row) (out : List ERow)
    (h : stereo_reconstruction reco telPos theta_uplim quality_cuts sim monly
      rows = Outcome.completed out) :
    ∀ er ∈ out, (0 ≤ er.az ∧ er.az < 360) ∧
      ∃ k : ℤ, er.az =
        (reco (eventInput (prepRows quality_cuts monly rows)
          (er.obs_id, er.event_id))).az - 360 * k := by
  rw [completed_out reco telPos theta_uplim quality_cuts sim monly rows out h]
  intro er her
  obtain ⟨a, _ha, rfl⟩ := mem_processEvents.mp her
  refine ⟨wrapAngle_bounds _, ⟨⌊(reco (eventInput (prepRows quality_cuts monly
    rows) (evKey a))).az / 360⌋, ?_⟩⟩
  show wrapAngle (reco (eventInput (prepRows quality_cuts monly rows)
    (evKey a))).az = _
  unfold wrapAngle
  rfl

theorem C4_witness :
    (stereo_reconstruction recoW telPosW 0 cutT true false rowsW =
      Outcome.completed (processEvents recoW telPosW prepW)) ∧
    (∀ er ∈ processEvents recoW telPosW prepW, (0 ≤ er.az ∧ er.az < 360) ∧
      ∃ k : ℤ, er.az =
        (recoW (eventInput prepW (er.obs_id, er.event_id))).az - 360 * k) :=
  ⟨rfl, C4_az_wrapped_into_range recoW telPosW 0 cutT true false rowsW _ rfl⟩

/-! ### C5 -/

/-- Modelled from the spec: §4.4 step 7 of the Geometric Stereo
Reconstructor — "fewer than two telescopes pass the per-image
intensity/shape threshold" yields `is_valid = false` with placeholder
numeric fields rather than raising.  The record returned for a degenerate
event; `ℝ` has no NaN, so the placeholders are modelled as zeros. -/
def invalid_estimate : Estimate := ⟨0, 0, 0, 0, 0, 0, 0, 0, 0, false⟩

/-- Modelled from the spec: the multiplicity gate of §4.4 step 7.  The
pairwise-intersection geometry of steps 1-6 (performed by ctapipe's
`HillasReconstructor`, outside this repository) is the abstract `core`;
for an event with fewer than two contributing telescopes the reconstructor
returns the invalid placeholder record instead of raising. -/
def hillas_gate (core : EventIn → Estimate) : EventIn → Estimate :=
  fun g => if g.rows.length < 2 then invalid_estimate else core g

/-- C5: in every completed run whose reconstructor gates on multiplicity as
§4.4 step 7 describes, an event with fewer than two contributing telescopes
still yields an output record for each of its rows — carrying
`is_valid = 0` — rather than raising or being dropped. -/
theorem C5_low_multiplicity_invalid_not_raised (core : EventIn → Estimate)
    (telPos : Nat → ℝ × ℝ × ℝ) (theta_uplim : ℝ) (quality_cuts : Row → Bool)
    (sim monly : Bool) (rows : List Row) (out : List ERow)
    (h : stereo_reconstruction (hillas_gate core) telPos theta_uplim
      quality_cuts sim monly rows = Outcome.completed out) :
    ∀ a ∈ prepRows quality_cuts monly rows,
      (rowsOfEvent (prepRows quality_cuts monly rows) (evKey a)).length < 2 →
      ∃ er ∈ out, er.obs_id = a.obs_id ∧ er.event_id = a.event_id ∧
        er.tel_id = a.tel_id ∧ er.is_valid = 0 := by
  intro a ha hm
  rw [completed_out (hillas_gate core) telPos theta_uplim quality_cuts sim
    monly rows out h]
  refine ⟨enrichRow telPos
    (estFor (hillas_gate core) (prepRows quality_cuts monly rows) (evKey a)) a,
    mem_processEvents.mpr ⟨a, ha, rfl⟩, rfl, rfl, rfl, ?_⟩
  show (if (estFor (hillas_gate core) (prepRows quality_cuts monly rows)
    (evKey a)).is_valid then 1 else 0) = 0
  have hv : (estFor (hillas_gate core) (prepRows quality_cuts monly rows)
      (evKey a)).is_valid = false := by
    unfold estFor hillas_gate eventInput
    simp [hm, invalid_estimate]
  rw [hv]
  rfl

theorem C5_witness :
    (stereo_reconstruction (hillas_gate recoW) telPosW 0 cutT true false rows3 =
      Outcome.completed
        (processEvents (hillas_gate recoW) telPosW (prepRows cutT false rows3))) ∧
    (∀ a ∈ prepRows cutT false rows3,
      (rowsOfEvent (prepRows cutT false rows3) (evKey a)).length < 2 →
      ∃ er ∈ processEvents (hillas_gate recoW) telPosW (prepRows cutT false
        rows3), er.obs_id = a.obs_id ∧ er.event_id = a.event_id ∧
        er.tel_id = a.tel_id ∧ er.is_valid = 0) :=
  ⟨rfl, C5_low_multiplicity_invalid_not_raised recoW telPosW 0 cutT true false
    rows3 _ rfl⟩

/-! ### C6 -/

def rows6 : List Row := [mkRow 1 1 1, mkRow 1 1 2]

def telPos6 : Nat → ℝ × ℝ × ℝ := fun t => if t == 1 then (0, 0, 0) else (0, 1, 0)

lemma wrapAngle_zero : wrapAngle 0 = 0 := by
  unfold wrapAngle
  norm_num

lemma impact_origin : calculate_impact 0 0 0 0 0 0 0 = 0 := by
  unfold calculate_impact
  norm_num

lemma impact_offset : calculate_impact 0 0 0 0 0 1 0 = 1 := by
  unfold calculate_impact
  norm_num

/-- C6: in every completed run, any two output rows of the same event agree
on all broadcast stereo parameters (`alt`, `alt_uncert`, `az`, `az_uncert`,
`core_x`, `core_y`, `core_uncert`, `h_max`, `h_max_uncert`, `is_valid`);
each row's `impact` is computed from that telescope's own 3D position; and
the impacts of two rows of one event can actually differ (witnessed by a
concrete run). -/
theorem C6_broadcast_except_impact (reco : EventIn → Estimate)
    (telPos : Nat → ℝ × ℝ × ℝ) (theta_uplim : ℝ) (quality_cuts : Row → Bool)
    (sim monly : Bool) (rows : List Row) (out : List ERow)
    (h : stereo_reconstruction reco telPos theta_uplim quality_cuts sim monly
      rows = Outcome.completed out) :
    (∀ r1 ∈ out, ∀ r2 ∈ out, r1.obs_id = r2.obs_id → r1.event_id = r2.event_id →
      r1.alt = r2.alt ∧ r1.alt_uncert = r2.alt_uncert ∧ r1.az = r2.az ∧
      r1.az_uncert = r2.az_uncert ∧ r1.core_x = r2.core_x ∧
      r1.core_y = r2.core_y ∧ r1.core_uncert = r2.core_uncert ∧
      r1.h_max = r2.h_max ∧ r1.h_max_uncert = r2.h_max_uncert ∧
      r1.is_valid = r2.is_valid) ∧
    (∀ er ∈ out,
      er.impact =
        calculate_impact
          (estFor reco (prepRows quality_cuts monly rows)
            (er.obs_id, er.event_id)).alt
          (estFor reco (prepRows quality_cuts monly rows)
            (er.obs_id, er.event_id)).az
          (estFor reco (prepRows quality_cuts monly rows)
            (er.obs_id, er.event_id)).core_x
          (estFor reco (prepRows quality_cuts monly rows)
            (er.obs_id, er.event_id)).core_y
          (telPos er.tel_id).1 (telPos er.tel_id).2.1 (telPos er.tel_id).2.2) ∧
    (∃ r1 r2,
      r1 ∈ processEvents recoW telPos6 (prepRows cutT false rows6) ∧
      r2 ∈ processEvents recoW telPos6 (prepRows cutT false rows6) ∧
      r1.obs_id = r2.obs_id ∧ r1.event_id = r2.event_id ∧
      r1.impact ≠ r2.impact) := by
  rw [completed_out reco telPos theta_uplim quality_cuts sim monly rows out h]
  refine ⟨?_, ?_, ?_⟩
  · intro r1 h1 r2 h2 ho he
    obtain ⟨a1, _ha1, rfl⟩ := mem_processEvents.mp h1
    obtain ⟨a2, _ha2, rfl⟩ := mem_processEvents.mp h2
    have hk : evKey a1 = evKey a2 := by
      show (a1.obs_id, a1.event_id) = (a2.obs_id, a2.event_id)
      have ho' : a1.obs_id = a2.obs_id := ho
      have he' : a1.event_id = a2.event_id := he
      rw [ho', he']
    rw [hk]
    exact ⟨rfl, rfl, rfl, rfl, rfl, rfl, rfl, rfl, rfl, rfl⟩
  · intro er her
    obtain ⟨a, _ha, rfl⟩ := mem_processEvents.mp her
    rfl
  · refine ⟨enrichRow telPos6
      (estFor recoW (prepRows cutT false rows6) (1, 1)) (mkRow 1 1 1),
      enrichRow telPos6
      (estFor recoW (prepRows cutT false rows6) (1, 1)) (mkRow 1 1 2),
      mem_processEvents.mpr ⟨mkRow 1 1 1, ?_, rfl⟩,
      mem_processEvents.mpr ⟨mkRow 1 1 2, ?_, rfl⟩, rfl, rfl, ?_⟩
    · exact List.mem_cons_self _ _
    · exact List.mem_cons_of_mem _ (List.mem_cons_self _ _)
    · have h1 : (enrichRow telPos6
          (estFor recoW (prepRows cutT false rows6) (1, 1)) (mkRow 1 1 1)).impact
          = 0 := by
        show calculate_impact 0 (wrapAngle 0) 0 0 0 0 0 = 0
        rw [wrapAngle_zero]
        exact impact_origin
      have h2 : (enrichRow telPos6
          (estFor recoW (prepRows cutT false rows6) (1, 1)) (mkRow 1 1 2)).impact
          = 1 := by
        show calculate_impact 0 (wrapAngle 0) 0 0 0 1 0 = 1
        rw [wrapAngle_zero]
        exact impact_offset
      rw [h1, h2]
      exact zero_ne_one

theorem C6_witness :
    (stereo_reconstruction recoW telPos6 0 cutT true false rows6 =
      Outcome.completed (processEvents recoW telPos6 (prepRows cutT false
        rows6))) ∧
    (∀ r1 ∈ processEvents recoW telPos6 (prepRows cutT false rows6),
      ∀ r2 ∈ processEvents recoW telPos6 (prepRows cutT false rows6),
      r1.obs_id = r2.obs_id → r1.event_id = r2.event_id →
      r1.alt = r2.alt ∧ r1.alt_uncert = r2.alt_uncert ∧ r1.az = r2.az ∧
      r1.az_uncert = r2.az_uncert ∧ r1.core_x = r2.core_x ∧
      r1.core_y = r2.core_y ∧ r1.core_uncert = r2.core_uncert ∧
      r1.h_max = r2.h_max ∧ r1.h_max_uncert = r2.h_max_uncert ∧
      r1.is_valid = r2.is_valid) :=
  ⟨rfl, (C6_broadcast_except_impact recoW telPos6 0 cutT true false rows6 _
    rfl).1⟩

/-! ### C8 -/

/-- Strictly increasing order on `(obs_id, event_id)` pairs. -/
def evLt (a b : Nat × Nat) : Prop := a.1 < b.1 ∨ (a.1 = b.1 ∧ a.2 < b.2)

/-- Weak lexicographic order on `(obs_id, event_id)` pairs. -/
def evLe (a b : Nat × Nat) : Prop := a.1 < b.1 ∨ (a.1 = b.1 ∧ a.2 ≤ b.2)

/-- C8: for every input batch, the event table handed to the
reconstruction loop is sorted by its `(obs_id, event_id, tel_id)` index,
and the loop's event keys — the group keys it iterates over — are in
strictly increasing `(obs_id, event_id)` order, so the iteration order and
the output are deterministic for a given input. -/
theorem C8_events_strictly_increasing (quality_cuts : Row → Bool)
    (monly : Bool) (rows : List Row) :
    List.Pairwise rowle (prepRows quality_cuts monly rows) ∧
    List.Pairwise evLt (eventKeys (prepRows quality_cuts monly rows)) := by
  have hsorted : List.Pairwise rowle (sortRows rows) :=
    List.sorted_insertionSort rowle rows
  have hprep : List.Pairwise rowle (prepRows quality_cuts monly rows) := by
    unfold prepRows get_stereo_events
    cases monly
    · simpa using hsorted.filter quality_cuts
    · simpa using (hsorted.filter _).filter quality_cuts
  refine ⟨hprep, ?_⟩
  have hmap : List.Pairwise evLe
      ((prepRows quality_cuts monly rows).map evKey) := by
    refine hprep.map evKey ?_
    intro a b hab
    unfold rowle lex3 rowKey at hab
    unfold evLe evKey
    dsimp only at hab ⊢
    omega
  have hdedup : List.Pairwise evLe
      (eventKeys (prepRows quality_cuts monly rows)) :=
    List.Pairwise.sublist (List.dedup_sublist _) hmap
  have hnodup : List.Pairwise (fun a b : Nat × Nat => a ≠ b)
      (eventKeys (prepRows quality_cuts monly rows)) :=
    List.nodup_dedup _
  refine (hdedup.and hnodup).imp ?_
  intro a b hab
  obtain ⟨hle, hne⟩ := hab
  unfold evLe at hle
  unfold evLt
  rw [Ne, Prod.ext_iff, not_and] at hne
  omega

/-! ### C10 -/

/-- The precondition of the MAGIC reindexing, as the claim states it: every
`(obs_id, event_id)` key having a `tel_id == 1` row also has at least one
`tel_id ∈ {2, 3}` row. -/
def lstHasMagic (event_data : List Row) : Prop :=
  ∀ rl ∈ event_data, rl.tel_id = 1 →
    ∃ rm ∈ event_data, (rm.tel_id = 2 ∨ rm.tel_id = 3) ∧ evKey rm = evKey rl

instance (event_data : List Row) : Decidable (lstHasMagic event_data) := by
  unfold lstHasMagic evKey; infer_instance

lemma lst_covered_iff (event_data : List Row) :
    lst_covered event_data = true ↔ lstHasMagic event_data := by
  unfold lst_covered lstHasMagic
  rw [List.all_eq_true]
  constructor
  · intro h rl hrl h1
    have hmem : rl ∈ event_data.filter (fun a => a.tel_id == 1) :=
      List.mem_filter.mpr ⟨hrl, by simp [h1]⟩
    have h2 := h rl hmem
    rw [List.any_eq_true] at h2
    obtain ⟨rm, hrm, he⟩ := h2
    obtain ⟨hrm_mem, hcond⟩ := List.mem_filter.mp hrm
    refine ⟨rm, hrm_mem, ?_, of_decide_eq_true he⟩
    simpa using hcond
  · intro h rl hrl
    obtain ⟨hmem, h1⟩ := List.mem_filter.mp hrl
    have h1' : rl.tel_id = 1 := by simpa using h1
    obtain ⟨rm, hrm, ht, hk⟩ := h rl hmem h1'
    rw [List.any_eq_true]
    refine ⟨rm, List.mem_filter.mpr ⟨hrm, ?_⟩, by simp [hk]⟩
    rcases ht with h | h <;> simp [h]

/-- C10: `calculate_pointing_separation` is defined only under the
precondition that every `(obs_id, event_id)` with a `tel_id == 1` row also
has a `tel_id ∈ {2, 3}` row: the MAGIC reindexing raises (`none`) on any
input violating it, and under the precondition it returns exactly one
separation per LST-1 row (one per LST event, the index being unique in
`(obs_id, event_id, tel_id)`). -/
theorem C10_reindex_precondition (event_data : List Row) :
    (¬ lstHasMagic event_data →
      calculate_pointing_separation event_data = none) ∧
    (lstHasMagic event_data →
      ∃ l, calculate_pointing_separation event_data = some l ∧
        l.length =
          (event_data.filter fun a => a.tel_id == 1).length) := by
  constructor
  · intro hn
    have hcov : lst_covered event_data = false := by
      cases hcov : lst_covered event_data
      · rfl
      · exact absurd ((lst_covered_iff event_data).mp hcov) hn
    unfold calculate_pointing_separation
    simp [hcov]
  · intro hp
    have hcov := (lst_covered_iff event_data).mpr hp
    unfold calculate_pointing_separation
    simp only [hcov, if_true]
    exact ⟨_, rfl, by simp⟩

theorem C10_witness :
    (¬ lstHasMagic rows3 ∧ calculate_pointing_separation rows3 = none) ∧
    (lstHasMagic rows6 ∧ ∃ l, calculate_pointing_separation rows6 = some l ∧
      l.length = (rows6.filter fun a => a.tel_id == 1).length) := by
  have hbad : ¬ lstHasMagic rows3 := by decide
  have hgood : lstHasMagic rows6 := by decide
  exact ⟨⟨hbad, (C10_reindex_precondition rows3).1 hbad⟩,
    ⟨hgood, (C10_reindex_precondition rows6).2 hgood⟩⟩

/-! ### C7 -/

lemma atan2_pos_mul (c az : ℝ) (hc : 0 < c)
    (haz : az ∈ Set.Ioc (-Real.pi) Real.pi) :
    atan2 (c * Real.sin az) (c * Real.cos az) = az := by
  unfold atan2
  have hmk : ((c * Real.cos az : ℝ) : ℂ) + ((c * Real.sin az : ℝ) : ℂ) *
      Complex.I = (c : ℂ) * (Complex.cos az + Complex.sin az * Complex.I) := by
    rw [← Complex.ofReal_cos, ← Complex.ofReal_sin]
    push_cast
    ring
  rw [hmk, Complex.arg_real_mul _ hc, Complex.arg_cos_add_sin_mul_I haz]

lemma atan2_zero_nonneg (x : ℝ) (hx : 0 ≤ x) : atan2 0 x = 0 := by
  unfold atan2
  have h : ((x : ℝ) : ℂ) + ((0 : ℝ) : ℂ) * Complex.I = (x : ℂ) := by
    push_cast
    ring
  rw [h]
  exact Complex.arg_ofReal_of_nonneg hx

lemma sin_359 : Real.sin (359 * Real.pi / 180) = -Real.sin (Real.pi / 180) := by
  have h : 359 * Real.pi / 180 = 2 * Real.pi - Real.pi / 180 := by ring
  rw [h, Real.sin_sub, Real.sin_two_pi, Real.cos_two_pi]
  ring

lemma cos_359 : Real.cos (359 * Real.pi / 180) = Real.cos (Real.pi / 180) := by
  have h : 359 * Real.pi / 180 = 2 * Real.pi - Real.pi / 180 := by ring
  rw [h, Real.cos_sub, Real.sin_two_pi, Real.cos_two_pi]
  ring

/-- C7: the Mean Direction Combiner maps `n ≥ 1` identical directions to
exactly that direction (azimuth taken in the principal range `(-π, π]` rad
and altitude strictly inside `(-π/2, π/2)` rad), and for two equally
weighted directions with azimuths 1° and 359° at the same altitude the
mean azimuth is 0 (0°, not 180°): the Cartesian-vector averaging handles
the wrap at the 0/360° boundary. -/
theorem C7_mean_direction_wrap (n : ℕ) (az alt : ℝ) (hn : 1 ≤ n)
    (haz : az ∈ Set.Ioc (-Real.pi) Real.pi)
    (halt : alt ∈ Set.Ioo (-(Real.pi / 2)) (Real.pi / 2)) :
    calculate_mean_direction (List.replicate n (az, alt)) = (az, alt) ∧
    (calculate_mean_direction
      [(Real.pi / 180, alt), (359 * Real.pi / 180, alt)]).1 = 0 := by
  have hca : 0 < Real.cos alt := Real.cos_pos_of_mem_Ioo halt
  have hpi := Real.pi_pos
  constructor
  · unfold calculate_mean_direction
    simp only [List.map_replicate, List.sum_replicate, List.length_replicate,
      nsmul_eq_mul]
    have hn' : (n : ℝ) ≠ 0 := Nat.cast_ne_zero.mpr (by omega)
    rw [mul_div_cancel_left₀ _ hn', mul_div_cancel_left₀ _ hn',
      mul_div_cancel_left₀ _ hn']
    have hnorm : Real.sqrt ((Real.cos (az, alt).2 * Real.cos (az, alt).1) ^ 2 +
        (Real.cos (az, alt).2 * Real.sin (az, alt).1) ^ 2 +
        (Real.sin (az, alt).2) ^ 2) = 1 := by
      have h1 := Real.sin_sq_add_cos_sq az
      have h2 := Real.sin_sq_add_cos_sq alt
      have he : (Real.cos (az, alt).2 * Real.cos (az, alt).1) ^ 2 +
          (Real.cos (az, alt).2 * Real.sin (az, alt).1) ^ 2 +
          (Real.sin (az, alt).2) ^ 2 = 1 := by
        dsimp only
        nlinarith
      rw [he, Real.sqrt_one]
    rw [hnorm, div_one]
    rw [atan2_pos_mul (Real.cos alt) az hca haz,
      Real.arcsin_sin halt.1.le halt.2.le]
  · unfold calculate_mean_direction
    simp only [List.map_cons, List.map_nil, List.sum_cons, List.sum_nil,
      List.length_cons, List.length_nil]
    rw [sin_359, cos_359]
    have e1 : Real.cos alt * Real.sin (Real.pi / 180) +
        (Real.cos alt * -Real.sin (Real.pi / 180) + 0) = 0 := by ring
    rw [e1, zero_div]
    have hcp : 0 < Real.cos (Real.pi / 180) := by
      apply Real.cos_pos_of_mem_Ioo
      constructor <;> [linarith; linarith]
    apply atan2_zero_nonneg
    apply div_nonneg
    · nlinarith
    · norm_num

theorem C7_witness :
    (1 ≤ 1) ∧ ((0 : ℝ) ∈ Set.Ioc (-Real.pi) Real.pi) ∧
    ((0 : ℝ) ∈ Set.Ioo (-(Real.pi / 2)) (Real.pi / 2)) ∧
    (calculate_mean_direction (List.replicate 1 ((0 : ℝ), (0 : ℝ))) = (0, 0) ∧
      (calculate_mean_direction
        [(Real.pi / 180, (0 : ℝ)), (359 * Real.pi / 180, 0)]).1 = 0) := by
  have hpi := Real.pi_pos
  have h1 : (0 : ℝ) ∈ Set.Ioc (-Real.pi) Real.pi := ⟨by linarith, hpi.le⟩
  have h2 : (0 : ℝ) ∈ Set.Ioo (-(Real.pi / 2)) (Real.pi / 2) :=
    ⟨by linarith, by linarith⟩
  exact ⟨le_refl 1, h1, h2, C7_mean_direction_wrap 1 0 0 (le_refl 1) h1 h2⟩

end StereoReco
